import Mathlib

/-!
Verification of the quantnet-controller request-orchestration pipeline.

The definitions below are shallow embeddings of the Python sources under
`quantnet_controller/`: the request registry (`common/request.py`), the
request translator (`common/request_translator.py`), the schedule manager
(`plugins/scheduling/schedule_manager.py`), the routing engine
(`plugins/routing/routing.py`), the resource manager
(`core/managers.py`) and the document-store adapter
(`db/nosql/collection/__init__.py`, `db/nosql/db.py`).
-/

set_option autoImplicit false

namespace QuantNet

/-- Modelled from the spec: the status-code enum `quantnet_mq.Code` comes
from the external `quantnet_mq` wire-protocol package, which is not part of
this repository's sources; the spec fixes its closed set of members as
`OK, QUEUED, RUNNING, FAILED, INVALID_ARGUMENT, UNKNOWN, NOT_FOUND, TIMEOUT`. -/
inductive Code where
  | OK
  | QUEUED
  | RUNNING
  | FAILED
  | INVALID_ARGUMENT
  | UNKNOWN
  | NOT_FOUND
  | TIMEOUT
deriving DecidableEq, Repr

/-- The Python enum member name of a `Code`, as used by `Code[...]` lookup. -/
def Code.pyName : Code → String
  | .OK => "OK"
  | .QUEUED => "QUEUED"
  | .RUNNING => "RUNNING"
  | .FAILED => "FAILED"
  | .INVALID_ARGUMENT => "INVALID_ARGUMENT"
  | .UNKNOWN => "UNKNOWN"
  | .NOT_FOUND => "NOT_FOUND"
  | .TIMEOUT => "TIMEOUT"

/-- All members of the `Code` enum, in declaration order. -/
def allCodes : List Code :=
  [.OK, .QUEUED, .RUNNING, .FAILED, .INVALID_ARGUMENT, .UNKNOWN, .NOT_FOUND, .TIMEOUT]

/-- Python `Code[name]`: lookup of an enum member by exact name. -/
def codeOfPyName (s : String) : Option Code :=
  allCodes.find? (fun c => c.pyName = s)

/-- Python `str.upper()`, character-wise (all strings involved are ASCII). -/
def pyUpper (s : String) : String := ⟨s.data.map Char.toUpper⟩

/-- The heterogeneous values an executor may return to
`RequestManager._execute_request` (`common/request.py`): a typed `Code`,
a `bool`, an `int`, a `str`, or `None`.  Python checks `bool` before `int`
(a `bool` is an `int` in Python); the tagged sum keeps the cases disjoint. -/
inductive RetVal where
  | code (c : Code)
  | bool (b : Bool)
  | int (n : Int)
  | str (s : String)
  | none
deriving DecidableEq, Repr

/-- `RequestManager._normalize_return_code` (`common/request.py`, lines
574-612), restricted to the argument types it documents.  A `str` is
upper-cased and looked up among the `Code` member names. -/
def normalize_return_code : RetVal → Code
  | .code c => c
  | .bool b => if b then .OK else .FAILED
  | .int n => if n = 0 then .OK else .FAILED
  | .str s =>
      match codeOfPyName (pyUpper s) with
      | some c => c
      | Option.none => .FAILED
  | .none => .OK

/-! ## Request objects and the status lifecycle (`common/request.py`) -/

/-- `quantnet_mq.schema.models.Status` as populated by `request.py`:
`Status(code=code.value, value=code.name, reason=..., message=...)`.
The `code`/`value` pair always encodes one `Code` member, kept here as
the member itself. -/
structure StatusM where
  code : Code
  reason : Option String
  message : Option String
deriving DecidableEq, Repr

/-- One entry of `request.result["errors"]`:
`{"timestamp": ..., "error": str(error)}`. -/
structure ErrEntry where
  timestamp : Nat
  error : String
deriving DecidableEq, Repr

/-- The mutable per-request state tracked by `Request` (`common/request.py`):
`status`, `error` and the append-only `result["errors"]` list.  Time is an
abstract counter standing for `datetime.now().timestamp()`. -/
structure RequestM where
  id : String
  status : StatusM
  error : Option String
  errors : List ErrEntry
  created_at : Nat
  updated_at : Nat
deriving DecidableEq, Repr

/-- `Request.__post_init__`: a freshly constructed request has
`Status(code=Code.OK.value, value=Code.OK.name, message="Request created,
not yet started")`, no error and an empty result. -/
def mkRequest (rid : String) (now : Nat) : RequestM :=
  { id := rid
    status := { code := .OK, reason := Option.none
                message := some "Request created, not yet started" }
    error := Option.none
    errors := []
    created_at := now
    updated_at := now }

/-- `Request.update_status` (`common/request.py`, lines 78-104): replaces
`self.status` with a fresh `Status` built from `code`, records `error` and
appends an entry to `result["errors"]` when an error message is given. -/
def update_status (r : RequestM) (now : Nat) (code : Code) (error : Option String) :
    RequestM :=
  let st : StatusM := { code := code, reason := error, message := error }
  match error with
  | some e =>
      { r with updated_at := now, status := st, error := some e
               errors := r.errors ++ [{ timestamp := now, error := e }] }
  | Option.none => { r with updated_at := now, status := st }

/-- The operation of the request registry that persisted a given snapshot:
creation (`new_request`), enqueue (`schedule` / `noSchedule`), start of
execution and end of execution (both in `_execute_request`). -/
inductive Stage where
  | created
  | queued
  | running
  | finished
deriving DecidableEq, Repr

/-- Abstract lifecycle codes named by the spec's status chain. -/
inductive LifecycleCode where
  | Created
  | Queued
  | Running
  | Completed
  | Failed
deriving DecidableEq, Repr

/-- The abstract status a persisted snapshot records: the first three
registry operations mark the first three chain stages; the end-of-execution
persist records `Completed` when the stored code is `OK` and `Failed`
otherwise (`_execute_request` stores `Code.OK` or `Code.FAILED` there). -/
def abstractOf : Stage × RequestM → LifecycleCode
  | (.created, _) => .Created
  | (.queued, _) => .Queued
  | (.running, _) => .Running
  | (.finished, r) => if r.status.code = .OK then .Completed else .Failed

/-- What the executor run produced: a returned value, or an exception
caught by `_execute_request`'s `except` clause. -/
inductive ExecOutcome where
  | value (rv : RetVal)
  | exc (msg : String)

/-- `RequestManager._execute_request` (`common/request.py`, lines 519-572):
persists an `OK` status on entry, runs the executor, normalizes its return
value, then persists `FAILED` (with an error message) when the normalized
code is not `OK` and `OK` otherwise; an exception persists `FAILED` with
the exception text.  Returns the final request together with the list of
snapshots persisted by this call, tagged with their stage. -/
def execute_request (r : RequestM) (t : Nat) (o : ExecOutcome) :
    RequestM × List (Stage × RequestM) :=
  let r1 := update_status r t .OK Option.none
  match o with
  | .value rv =>
      let rc := normalize_return_code rv
      let r2 :=
        if rc ≠ Code.OK then
          update_status r1 (t + 1) .FAILED
            (some ("Execution failed with code " ++ rc.pyName))
        else
          update_status r1 (t + 1) .OK Option.none
      (r2, [(.running, r1), (.finished, r2)])
  | .exc msg =>
      let r2 := update_status r1 (t + 1) .FAILED (some msg)
      (r2, [(.running, r1), (.finished, r2)])

/-- The snapshots persisted for one request driven through
`new_request` → `schedule` → `_execute_request`: `new_request` persists the
freshly created request (`db_handler.add`), `schedule` persists a `QUEUED`
status, and `_execute_request` persists the running and terminal states. -/
def scheduleRun (rid : String) (o : ExecOutcome) : List (Stage × RequestM) :=
  let r0 := mkRequest rid 0
  let r1 := update_status r0 1 .QUEUED Option.none
  (Stage.created, r0) :: (Stage.queued, r1) :: (execute_request r1 2 o).2

/-- The snapshots persisted for one request driven through
`new_request` → `noSchedule` → `_execute_request`: `noSchedule` persists an
`OK` status instead of `QUEUED` and bypasses the queue. -/
def noScheduleRun (rid : String) (o : ExecOutcome) : List (Stage × RequestM) :=
  let r0 := mkRequest rid 0
  let r1 := update_status r0 1 .OK Option.none
  (Stage.created, r0) :: (Stage.queued, r1) :: (execute_request r1 2 o).2

end QuantNet

namespace QuantNet

/-- `Code[...]` lookup succeeds on each member's own name. -/
theorem codeOfPyName_pyName (c : Code) : codeOfPyName c.pyName = some c := by
  cases c <;> rfl

/-- C4: the executor return-code normalization maps a `Code` to itself,
`true` to `OK` and `false` to `FAILED`, integer `0` to `OK` and every other
integer to `FAILED`, a string that case-insensitively names a `Code` to
that `Code` and any other string to `FAILED`, and `None` to `OK`. -/
theorem C4_return_code_normalization :
    (∀ c : Code, normalize_return_code (.code c) = c) ∧
    (normalize_return_code (.bool true) = Code.OK ∧
      normalize_return_code (.bool false) = Code.FAILED) ∧
    (normalize_return_code (.int 0) = Code.OK ∧
      ∀ n : Int, n ≠ 0 → normalize_return_code (.int n) = Code.FAILED) ∧
    ((∀ s : String, ∀ c : Code, pyUpper s = c.pyName →
        normalize_return_code (.str s) = c) ∧
      (∀ s : String, (∀ c : Code, pyUpper s ≠ c.pyName) →
        normalize_return_code (.str s) = Code.FAILED)) ∧
    normalize_return_code .none = Code.OK := by
  refine ⟨fun c => rfl, ⟨rfl, rfl⟩, ⟨rfl, fun n hn => ?_⟩, ⟨?_, ?_⟩, rfl⟩
  · simp [normalize_return_code, hn]
  · intro s c h
    simp [normalize_return_code, h, codeOfPyName_pyName]
  · intro s h
    have hnone : codeOfPyName (pyUpper s) = Option.none := by
      apply List.find?_eq_none.mpr
      intro c _
      simpa [eq_comm] using (h c)
    simp [normalize_return_code, hnone]

/-- Witness for C4 at concrete inputs: `3 → FAILED` and `"ok" → OK`. -/
theorem C4_witness :
    normalize_return_code (.int 3) = Code.FAILED ∧
    normalize_return_code (.str "ok") = Code.OK :=
  ⟨C4_return_code_normalization.2.2.1.2 3 (by decide),
   C4_return_code_normalization.2.2.2.1.1 "ok" Code.OK (by decide)⟩

/-- C1: for a request driven through the registry pipeline (creation,
schedule or noSchedule, execution start, execution end), the persisted
status sequence is a prefix of `Created → Queued → Running →
{Completed | Failed}`, and the terminal status is recorded only by the
last persisted snapshot, so no later operation replaces it. -/
theorem C1_status_lifecycle (rid : String) (o : ExecOutcome)
    (run : List (Stage × RequestM))
    (h : run = scheduleRun rid o ∨ run = noScheduleRun rid o) :
    (∃ rest,
        run.map abstractOf ++ rest =
          [LifecycleCode.Created, .Queued, .Running, .Completed] ∨
        run.map abstractOf ++ rest =
          [LifecycleCode.Created, .Queued, .Running, .Failed]) ∧
    (∀ p ∈ run.dropLast, p.1 ≠ Stage.finished) := by
  have hexec : ∀ (r1 : RequestM) (t : Nat), ∃ r2 : RequestM,
      (r2.status.code = Code.OK ∨ r2.status.code = Code.FAILED) ∧
      (execute_request r1 t o).2 =
        [(Stage.running, update_status r1 t .OK Option.none), (Stage.finished, r2)] := by
    intro r1 t
    cases o with
    | value rv =>
        by_cases hrc : normalize_return_code rv = Code.OK
        · refine ⟨update_status (update_status r1 t .OK Option.none) (t + 1) .OK Option.none,
            Or.inl (by simp [update_status]), ?_⟩
          simp [execute_request, hrc]
        · refine ⟨update_status (update_status r1 t .OK Option.none) (t + 1) .FAILED
            (some ("Execution failed with code " ++ (normalize_return_code rv).pyName)),
            Or.inr (by simp [update_status]), ?_⟩
          simp [execute_request, hrc]
    | exc msg =>
        exact ⟨update_status (update_status r1 t .OK Option.none) (t + 1) .FAILED (some msg),
          Or.inr (by simp [update_status]), by simp [execute_request]⟩
  have hmain : ∀ q : Code,
      (∃ rest,
        (((Stage.created, mkRequest rid 0) ::
          (Stage.queued, update_status (mkRequest rid 0) 1 q Option.none) ::
          (execute_request (update_status (mkRequest rid 0) 1 q Option.none) 2 o).2).map
            abstractOf) ++ rest =
          [LifecycleCode.Created, .Queued, .Running, .Completed] ∨
        (((Stage.created, mkRequest rid 0) ::
          (Stage.queued, update_status (mkRequest rid 0) 1 q Option.none) ::
          (execute_request (update_status (mkRequest rid 0) 1 q Option.none) 2 o).2).map
            abstractOf) ++ rest =
          [LifecycleCode.Created, .Queued, .Running, .Failed]) ∧
      (∀ p ∈ ((Stage.created, mkRequest rid 0) ::
          (Stage.queued, update_status (mkRequest rid 0) 1 q Option.none) ::
          (execute_request (update_status (mkRequest rid 0) 1 q Option.none) 2 o).2).dropLast,
        p.1 ≠ Stage.finished) := by
    intro q
    obtain ⟨r2, hr2, hps⟩ := hexec (update_status (mkRequest rid 0) 1 q Option.none) 2
    rw [hps]
    constructor
    · refine ⟨[], ?_⟩
      rcases hr2 with h2 | h2
      · exact Or.inl (by simp [abstractOf, h2])
      · refine Or.inr (by simp [abstractOf, h2])
    · simp [abstractOf]
  rcases h with h | h <;> subst h
  · simpa only [scheduleRun] using hmain .QUEUED
  · simpa only [noScheduleRun] using hmain .OK

/-- Witness for C1: the schedule-path run of a concrete request. -/
theorem C1_witness :
    (∃ rest,
        ((scheduleRun "r" (.value .none)).map abstractOf) ++ rest =
          [LifecycleCode.Created, .Queued, .Running, .Completed] ∨
        ((scheduleRun "r" (.value .none)).map abstractOf) ++ rest =
          [LifecycleCode.Created, .Queued, .Running, .Failed]) ∧
    (∀ p ∈ (scheduleRun "r" (.value .none)).dropLast, p.1 ≠ Stage.finished) :=
  C1_status_lifecycle "r" (.value .none) _ (Or.inl rfl)

end QuantNet

namespace QuantNet

/-! ## Time slots and the request translator
(`common/experimentdefinitions.py`, `common/request_translator.py`) -/

/-- `Constants.MAX_TIMESLOTS` (`common/constants.py`). -/
def MAX_TIMESLOTS : Nat := 500

/-- `Constants.SLOTSIZE` = `timedelta(milliseconds=100)`, in microseconds
(the resolution of Python `timedelta`). -/
def SLOTSIZE : Nat := 100000

/-- `get_num_timeslot` (`common/experimentdefinitions.py`, lines 26-28):
`math.ceil(sequence.duration / SLOTSIZE)` for a duration in microseconds. -/
def get_num_timeslot (duration : Nat) : Nat := (duration + SLOTSIZE - 1) / SLOTSIZE

/-- One `AgentSequences` entry of an experiment definition: its role type
(`node_type`) and the durations (µs) of its sequences. -/
structure AgentSeq where
  node_type : String
  durations : List Nat
deriving DecidableEq, Repr

/-- Length of `get_timeslot_mask(sequences)`
(`common/experimentdefinitions.py`, lines 45-49): the mask is the string
`'1' * get_num_timeslot(seq)` concatenated over the sequences, so it is
determined by its length. -/
def maskLen (a : AgentSeq) : Nat := (a.durations.map get_num_timeslot).sum

/-- An experiment definition (`Experiment.agent_sequences`). -/
structure ExpDefM where
  name : String
  agent_sequences : List AgentSeq
deriving DecidableEq, Repr

/-- Bitwise AND of two bitarrays (`bitarray.__and__`; the source only ANDs
equal-length arrays). -/
def andBits (a b : List Bool) : List Bool := List.zipWith and a b

/-- Whether `pat` occurs in `hay` at position `i`. -/
def matchesAt (hay pat : List Bool) (i : Nat) : Bool :=
  decide (i + pat.length ≤ hay.length) && ((hay.drop i).take pat.length == pat)

/-- Scan for the first occurrence of `pat` at or after position `i`. -/
def findSubGo (hay pat : List Bool) : Nat → Nat → Option Nat
  | _, 0 => Option.none
  | i, fuel + 1 =>
      if matchesAt hay pat i then some i else findSubGo hay pat (i + 1) fuel

/-- `bitarray.find(sub)` without its `-1` sentinel: the least position at
which `sub` occurs in the array, if any. -/
def findSub (hay pat : List Bool) : Option Nat :=
  findSubGo hay pat 0 (hay.length + 1)

/-- `bitarray.find(sub)`: the least index of an occurrence, `-1` if none. -/
def bfind (hay pat : List Bool) : Int :=
  match findSub hay pat with
  | some i => (i : Int)
  | Option.none => -1

/-- `common = AND(availabilities[agentIDs])` seeded with
`bitarray("1" * MAX_TIMESLOTS)` (`find_common_slot`). -/
def commonBits (agent_ids : List String) (avail : String → List Bool) : List Bool :=
  agent_ids.foldl (fun acc a => andBits (avail a) acc) (List.replicate MAX_TIMESLOTS true)

/-- The contiguous integer interval `[s, s+n)`, i.e. Python
`list(range(s, s + n))`. -/
def intRange (s : Int) (n : Nat) : List Int :=
  (List.range n).map (fun (k : Nat) => s + (k : Int))

/-- `RequestTranslator.find_common_slot` (`common/request_translator.py`,
lines 238-268).  `slot_mask` is the longest per-agent mask (Python `max`
over all-ones strings picks the longest), `common` is the AND of the
availability bitmaps, and `start = common.find(slot_mask)`, which is `-1`
when the mask fits nowhere — the source does not check for that sentinel.
Agent sequence `i` is then allocated `range(start, start + len(mask_i))`,
keyed by `agent_ids[i]`.  Exceptions of the source are modelled as `none`:
`max([])` raises `ValueError` when `agent_sequences` is empty, and
`agent_ids[i]` raises `IndexError` when fewer agents than agent sequences
were supplied. -/
def find_common_slot (agent_ids : List String) (avail : String → List Bool)
    (seqs : List AgentSeq) : Option (List (String × List Int)) :=
  if seqs.length = 0 then Option.none
  else if agent_ids.length < seqs.length then Option.none
  else
    let mlen := (seqs.map maskLen).foldr max 0
    let common := commonBits agent_ids avail
    let start := bfind common (List.replicate mlen true)
    some ((agent_ids.zip seqs).map (fun p => (p.1, intRange start (maskLen p.2))))

/-! ## Agent matching and `start_experiment`
(`common/request_translator.py`) -/

/-- A hop of a dense `Path`: the node's `systemSettings.ID` and
`systemSettings.type`. -/
structure PNode where
  ID : String
  type : String
deriving DecidableEq, Repr

/-- Find the first node of the given type in the pool and remove it
(the inner loop of `match_agent_to_exp`: scan, append the match, `remove`,
`break`). -/
def extractFirst (t : String) : List PNode → Option (PNode × List PNode)
  | [] => Option.none
  | n :: rest =>
      if n.type = t then some (n, rest)
      else (extractFirst t rest).map (fun q => (q.1, n :: q.2))

/-- The outer loop of `match_agent_to_exp`: for each required role type in
order, greedily take the first remaining node of that type; a role with no
matching node contributes nothing and the scan moves on. -/
def matchLoop : List String → List PNode → List String
  | [], _ => []
  | t :: ts, pool =>
      match extractFirst t pool with
      | some q => q.1.ID :: matchLoop ts q.2
      | Option.none => matchLoop ts pool

/-- `match_agent_to_exp` (`common/request_translator.py`, lines 17-50) on a
dense path: hops whose type is `OpticalSwitch` are excluded from the pool
first. -/
def match_agent_to_exp (expTypes : List String) (hops : List PNode) : List String :=
  matchLoop expTypes (hops.filter (fun n => n.type ≠ "OpticalSwitch"))

/-- Outcome of one agent RPC (`submit` / `getResult`): a well-formed
response carrying a status code, or a raised exception. -/
inductive RpcOutcome where
  | resp (c : Code)
  | exc
deriving DecidableEq, Repr

/-- Whether a submit outcome counts as success in `translate_request`
(lines 349-354): a response whose `status.code` is `OK`; an exception or
any other code raises. -/
def submitOk : RpcOutcome → Bool
  | .resp c => c == Code.OK
  | .exc => false

/-- Whether a getResult outcome counts as progress (lines 356-361):
`Code.OK` and `Code.QUEUED` are both accepted. -/
def getResultOk : RpcOutcome → Bool
  | .resp c => c == Code.OK || c == Code.QUEUED
  | .exc => false

/-- `RequestTranslator.translate_request` (`common/request_translator.py`,
lines 296-377), returning the result `Code` together with the list of
agents to which `submit` RPCs were issued.  The slot computation
(`get_slots_to_allocate` → `find_common_slot`) runs first; any exception
there is caught by the surrounding `try` and yields `Code.FAILED` before
any submission.  Otherwise one submit per agent sequence is gathered, then
the getResult responses; any failed submit or getResult raises and yields
`Code.FAILED`. -/
def translate_request (agent_ids : List String) (exp : ExpDefM)
    (avail : String → List Bool) (submitR getR : String → RpcOutcome) :
    Code × List String :=
  match find_common_slot agent_ids avail exp.agent_sequences with
  | Option.none => (Code.FAILED, [])
  | some _ =>
      let agents := agent_ids.take exp.agent_sequences.length
      if agents.all (fun a => submitOk (submitR a)) then
        if agents.all (fun a => getResultOk (getR a)) then (Code.OK, agents)
        else (Code.FAILED, agents)
      else (Code.FAILED, agents)

/-- `RequestTranslator.start_experiment` (`common/request_translator.py`,
lines 154-220): resolve the experiment class (`none` models an unknown
`exp_name`), match agents to the path, fail if any matched agent never
becomes ready, then translate; a non-`OK` translation result triggers the
best-effort cancel fan-out and is returned as is. -/
def start_experiment (exp? : Option ExpDefM) (hops : List PNode)
    (ready : String → Bool) (avail : String → List Bool)
    (submitR getR : String → RpcOutcome) : Code × List String :=
  match exp? with
  | Option.none => (Code.FAILED, [])
  | some exp =>
      let agents := match_agent_to_exp (exp.agent_sequences.map (fun a => a.node_type)) hops
      if agents.all ready then
        translate_request agents exp avail submitR getR
      else (Code.FAILED, [])

end QuantNet

namespace QuantNet

set_option maxRecDepth 40000 in
/-- C2: contrary to the claim, when no starting position in the AND of the
agents' availability bitmaps fits the required slot mask, `find_common_slot`
does not fail with `ResourceExhausted`: `bitarray.find` returns its `-1`
sentinel unchecked and a per-agent slot allocation starting at index `-1`
is still returned.  Shown on a single agent whose 500-slot bitmap is all
zeros and whose single sequence needs one slot. -/
theorem C2_no_fit_still_allocates :
    find_common_slot ["a"] (fun _ => List.replicate MAX_TIMESLOTS false)
        [{ node_type := "QNode", durations := [100000] }] =
      some [("a", [-1])] := by rfl

/-- C8: when `match_agent_to_exp` cannot match every required role type of
the experiment definition to a distinct non-`OpticalSwitch` hop of the
path, `start_experiment` returns `Code.FAILED` with no agent submitted to,
and executing the request with that result records a `FAILED` status. -/
theorem C8_partial_match_fails (exp : ExpDefM) (hops : List PNode)
    (ready : String → Bool) (avail : String → List Bool)
    (submitR getR : String → RpcOutcome)
    (hshort :
      (match_agent_to_exp (exp.agent_sequences.map (fun a => a.node_type)) hops).length
        < exp.agent_sequences.length) :
    start_experiment (some exp) hops ready avail submitR getR = (Code.FAILED, []) ∧
    ∀ (r : RequestM) (t : Nat),
      ((execute_request r t (.value (.code
          (start_experiment (some exp) hops ready avail submitR getR).1))).1).status.code
        = Code.FAILED := by
  have hlen :
      (match_agent_to_exp (exp.agent_sequences.map (fun a => a.node_type)) hops).length
        < exp.agent_sequences.length := hshort
  have hnone : find_common_slot
      (match_agent_to_exp (exp.agent_sequences.map (fun a => a.node_type)) hops)
      avail exp.agent_sequences = Option.none := by
    unfold find_common_slot
    have h0 : exp.agent_sequences.length ≠ 0 := by omega
    simp only [if_neg h0]
    rw [if_pos hlen]
  have hmain : start_experiment (some exp) hops ready avail submitR getR
      = (Code.FAILED, []) := by
    by_cases hr : (match_agent_to_exp
        (exp.agent_sequences.map (fun a => a.node_type)) hops).all ready
    · simp [start_experiment, translate_request, hr, hnone]
    · simp [start_experiment, hr]
  refine ⟨hmain, fun r t => ?_⟩
  rw [hmain]
  simp [execute_request, normalize_return_code, update_status]

/-- Witness for C8: an experiment needing two `QNode` roles against a path
with a single `QNode` hop. -/
theorem C8_witness :
    start_experiment
        (some { name := "e",
                agent_sequences :=
                  [{ node_type := "QNode", durations := [100000] },
                   { node_type := "QNode", durations := [100000] }] })
        [{ ID := "n1", type := "QNode" }]
        (fun _ => true) (fun _ => List.replicate MAX_TIMESLOTS true)
        (fun _ => .resp Code.OK) (fun _ => .resp Code.OK) = (Code.FAILED, []) :=
  (C8_partial_match_fails _ _ _ _ _ _ (by decide)).1

end QuantNet

namespace QuantNet

/-- Specification of the scan `findSubGo`: a hit is a genuine occurrence,
lies at or after the scan origin, and is the first such position. -/
theorem findSubGo_spec (hay pat : List Bool) :
    ∀ (fuel i r : Nat), findSubGo hay pat i fuel = some r →
      matchesAt hay pat r = true ∧ i ≤ r ∧
        ∀ j, i ≤ j → j < r → matchesAt hay pat j = false := by
  intro fuel
  induction fuel with
  | zero => intro i r h; simp [findSubGo] at h
  | succ n ih =>
      intro i r h
      by_cases hm : matchesAt hay pat i = true
      · simp [findSubGo, hm] at h
        subst h
        exact ⟨hm, le_refl _, fun j hij hjr => absurd (lt_of_le_of_lt hij hjr) (lt_irrefl _)⟩
      · simp only [findSubGo, if_neg hm] at h
        obtain ⟨hr, hir, hmin⟩ := ih (i + 1) r h
        refine ⟨hr, by omega, fun j hij hjr => ?_⟩
        rcases Nat.eq_or_lt_of_le hij with rfl | hlt
        · simpa using hm
        · exact hmin j (by omega) hjr

/-- `findSub` finds a genuine occurrence and the least one. -/
theorem findSub_spec (hay pat : List Bool) (r : Nat)
    (h : findSub hay pat = some r) :
    matchesAt hay pat r = true ∧ ∀ j, j < r → matchesAt hay pat j = false := by
  obtain ⟨h1, _, h3⟩ := findSubGo_spec hay pat (hay.length + 1) 0 r h
  exact ⟨h1, fun j hj => h3 j (Nat.zero_le j) hj⟩

/-- An occurrence of an all-ones mask at `s` forces a `1` bit at every
offset `k < m` inside the window. -/
theorem matchesAt_replicate_true {hay : List Bool} {m s k : Nat}
    (h : matchesAt hay (List.replicate m true) s = true) (hk : k < m) :
    s + k < hay.length ∧ hay.getD (s + k) false = true := by
  have h' := h
  unfold matchesAt at h'
  rw [Bool.and_eq_true] at h'
  simp only [List.length_replicate] at h'
  obtain ⟨hlen, heq⟩ := h'
  have hlen' : s + m ≤ hay.length := of_decide_eq_true hlen
  have heq' : (hay.drop s).take m = List.replicate m true := by
    exact beq_iff_eq.mp heq
  constructor
  · omega
  · have e1 : hay[s + k]? = (hay.drop s)[k]? := (List.getElem?_drop hay s k).symm
    have e2 : (hay.drop s)[k]? = ((hay.drop s).take m)[k]? := by
      rw [List.getElem?_take, if_pos hk]
    have e3 : ((hay.drop s).take m)[k]? = some true := by
      rw [heq']
      simp [List.getElem?_replicate, hk]
    rw [List.getD_eq_getElem?_getD, e1, e2, e3]
    rfl

/-- `intRange s n` lists exactly the `n` consecutive integers from `s`. -/
theorem intRange_length (s : Int) (n : Nat) : (intRange s n).length = n := by
  rw [intRange, List.length_map, List.length_range]

/-- Members of `intRange s n` are `s + k` with `k < n`. -/
theorem mem_intRange {s : Int} {n : Nat} {j : Int} (h : j ∈ intRange s n) :
    ∃ k : Nat, k < n ∧ j = s + k := by
  unfold intRange at h
  obtain ⟨k, hk, hj⟩ := List.mem_map.mp h
  exact ⟨k, List.mem_range.mp hk, hj.symm⟩

/-- Every member of a list of naturals is bounded by its `foldr max 0`. -/
theorem mem_le_foldr_max {l : List Nat} {a : Nat} (h : a ∈ l) : a ≤ l.foldr max 0 := by
  induction l with
  | nil => simp at h
  | cons b t ih =>
      rcases List.mem_cons.mp h with rfl | h'
      · exact le_max_left _ _
      · exact le_trans (ih h') (le_max_right _ _)

/-- C3 (amended): whenever the combined slot mask does fit somewhere in the
AND of the agents' availability bitmaps (`bitarray.find` succeeds, the case
the claim describes), every slot index allocated to any agent carries a `1`
bit of that AND, each agent's allocation is the contiguous ascending run
starting at the chosen index, and the chosen index is the least position at
which the combined mask fits.  (As stated, the claim also asserted this for
the no-fit case, where the source allocates from the `-1` sentinel instead
of failing — refuted by `C2_no_fit_still_allocates`.) -/
theorem C3_slot_allocation
    (agent_ids : List String) (avail : String → List Bool) (seqs : List AgentSeq)
    (res : List (String × List Int)) (start : Nat)
    (hres : find_common_slot agent_ids avail seqs = some res)
    (hfind : findSub (commonBits agent_ids avail)
        (List.replicate ((seqs.map maskLen).foldr max 0) true) = some start) :
    (∀ p ∈ res, ∀ j ∈ p.2, 0 ≤ j ∧ j.toNat < (commonBits agent_ids avail).length ∧
        (commonBits agent_ids avail).getD j.toNat false = true) ∧
    (∀ p ∈ res, p.2 = intRange (start : Int) p.2.length) ∧
    (∀ j : Nat, j < start →
        matchesAt (commonBits agent_ids avail)
          (List.replicate ((seqs.map maskLen).foldr max 0) true) j = false) := by
  obtain ⟨hmatch, hmin⟩ := findSub_spec _ _ _ hfind
  have hstart : bfind (commonBits agent_ids avail)
      (List.replicate ((seqs.map maskLen).foldr max 0) true) = (start : Int) := by
    unfold bfind
    rw [hfind]
  simp only [find_common_slot] at hres
  split_ifs at hres with h0 h1
  rw [hstart] at hres
  have hres' : res = (agent_ids.zip seqs).map
      (fun p => (p.1, intRange (start : Int) (maskLen p.2))) := by
    exact (Option.some.inj hres).symm
  subst hres'
  refine ⟨?_, ?_, fun j hj => hmin j hj⟩
  · intro p hp j hj
    obtain ⟨q, hq, hpq⟩ := List.mem_map.mp hp
    obtain ⟨k, hk, hjk⟩ : ∃ k : Nat, k < maskLen q.2 ∧ j = (start : Int) + k := by
      refine mem_intRange ?_
      have : p.2 = intRange (start : Int) (maskLen q.2) := by rw [← hpq]
      rw [← this]
      exact hj
    have hqmem : q.2 ∈ seqs := (List.of_mem_zip hq).2
    have hle : maskLen q.2 ≤ (seqs.map maskLen).foldr max 0 :=
      mem_le_foldr_max (List.mem_map_of_mem maskLen hqmem)
    obtain ⟨hlt, hbit⟩ := matchesAt_replicate_true hmatch (lt_of_lt_of_le hk hle)
    have hjnat : j.toNat = start + k := by
      subst hjk
      simp [Int.toNat_add]
    refine ⟨by omega, ?_, ?_⟩
    · rw [hjnat]; exact hlt
    · rw [hjnat]; exact hbit
  · intro p hp
    obtain ⟨q, _, hpq⟩ := List.mem_map.mp hp
    rw [← hpq]
    show intRange (start : Int) (maskLen q.2)
        = intRange (start : Int) (intRange (start : Int) (maskLen q.2)).length
    rw [intRange_length]

end QuantNet

namespace QuantNet

/-- Concrete availability bitmaps: agent `"a"` is busy in slots 0-1 and
free afterwards, agent `"b"` is fully free. -/
def c3Avail : String → List Bool :=
  fun a =>
    if a = "a" then List.replicate 2 false ++ List.replicate 498 true
    else List.replicate MAX_TIMESLOTS true

/-- Concrete experiment definition with one single-slot sequence per role. -/
def c3Seqs : List AgentSeq :=
  [{ node_type := "QNode", durations := [100000] },
   { node_type := "MNode", durations := [100000] }]

set_option maxRecDepth 40000 in
/-- Witness for C3: two agents whose common bitmap first fits at slot 2. -/
theorem C3_witness :
    (∀ p ∈ [("a", [(2 : Int)]), ("b", [(2 : Int)])], ∀ j ∈ p.2,
        0 ≤ j ∧ j.toNat < (commonBits ["a", "b"] c3Avail).length ∧
          (commonBits ["a", "b"] c3Avail).getD j.toNat false = true) ∧
    (∀ p ∈ [("a", [(2 : Int)]), ("b", [(2 : Int)])],
        p.2 = intRange ((2 : Nat) : Int) p.2.length) ∧
    (∀ j : Nat, j < 2 →
        matchesAt (commonBits ["a", "b"] c3Avail)
          (List.replicate ((c3Seqs.map maskLen).foldr max 0) true) j = false) :=
  C3_slot_allocation ["a", "b"] c3Avail c3Seqs
    [("a", [(2 : Int)]), ("b", [(2 : Int)])] 2 (by rfl) (by rfl)

end QuantNet

namespace QuantNet

/-! ## Scheduler cancel fan-out (`plugins/scheduling/schedule_manager.py`) -/

/-- Per-agent outcome of the `experiment.cancel` RPC issued by
`ScheduleManager._call_cancel_exp` (lines 52-61): a decoded response with a
status code; a `TimeoutError`, which `_call_cancel_exp` catches and turns
into `None`; or any other exception, which propagates and becomes that
agent's `gather(..., return_exceptions=True)` result. -/
inductive CancelOutcome where
  | resp (c : Code)
  | timeout
  | exc
deriving DecidableEq, Repr

/-- The result-inspection loop of `cancel_tasks` (lines 63-82), processed
in fan-out order.  An `OK` response continues; a `None` (timeout) or a
non-`OK` response is only logged.  An exception result makes
`result["status"]` raise a `TypeError`, which the surrounding `except`
clause logs and re-raises; `.error` models `cancel_tasks` raising. -/
def cancel_tasks_loop : List CancelOutcome → Except String Unit
  | [] => .ok ()
  | .exc :: _ => .error "TypeError: exception result is not subscriptable"
  | .resp _ :: rest => cancel_tasks_loop rest
  | .timeout :: rest => cancel_tasks_loop rest

/-- `ScheduleManager.cancel_tasks` as a function of the per-agent
outcomes of the cancel RPCs. -/
def cancel_tasks (outcomes : List CancelOutcome) : Except String Unit :=
  cancel_tasks_loop outcomes

/-- C9 (counterexample): an agent whose cancel RPC raises a non-timeout
exception makes `cancel_tasks` raise instead of returning: the claim fails
for this combination of per-agent outcomes. -/
theorem C9_counterexample :
    cancel_tasks [CancelOutcome.exc] =
      .error "TypeError: exception result is not subscriptable" := rfl

/-- C9 (amended): `cancel_tasks` returns without raising whenever every
per-agent outcome is a response (of any status) or a caught timeout;
only a non-timeout per-agent exception makes it raise. -/
theorem C9_cancel_swallows_logged_failures (outcomes : List CancelOutcome)
    (h : ∀ o ∈ outcomes, o ≠ CancelOutcome.exc) :
    cancel_tasks outcomes = .ok () := by
  unfold cancel_tasks
  induction outcomes with
  | nil => rfl
  | cons o rest ih =>
      have hrest : ∀ o ∈ rest, o ≠ CancelOutcome.exc :=
        fun x hx => h x (List.mem_cons_of_mem _ hx)
      cases o with
      | resp c => exact ih hrest
      | timeout => exact ih hrest
      | exc => exact absurd rfl (h _ (List.mem_cons_self _ _))

/-- Witness for C9 (amended): a timeout, a non-`OK` response and an `OK`
response together are all swallowed. -/
theorem C9_witness :
    cancel_tasks [CancelOutcome.timeout, .resp Code.FAILED, .resp Code.OK] = .ok () :=
  C9_cancel_swallows_logged_failures _ (by decide)

/-! ## Routing (`plugins/routing/routing.py`, `find_route`) -/

/-- `router_types` in `find_route` (line 488). -/
def router_types : List String := ["QRepeater", "QRouter"]

/-- `is_router_device` (lines 494-495): membership of the node's
`systemSettings.type` (from the node-info map) in `router_types`. -/
def is_router_device (typeOf : String → String) (n : String) : Bool :=
  router_types.contains (typeOf n)

/-- The interior hops of a route, Python `r[1:-1]`. -/
def interior (r : List String) : List String := (r.drop 1).dropLast

/-- The validity test of `do_filter` (lines 511-519): a route of more than
two nodes is valid only when all its interior nodes are router devices (the
loop overwrites `valid` per node and breaks at the first failure). -/
def do_filter_valid (typeOf : String → String) (r : List String) : Bool :=
  decide (r.length ≤ 2) || (interior r).all (is_router_device typeOf)

/-- One iteration of `do_filter` (lines 510-523): a valid route not yet
collected is appended to `route_set`. -/
def do_filter_step (typeOf : String → String) (acc : List (List String))
    (r : List String) : List (List String) :=
  if do_filter_valid typeOf r && !(acc.contains r) then acc ++ [r] else acc

/-- `do_filter` (lines 506-524): fold the step over the raw routes,
starting from an empty `route_set`. -/
def do_filter (typeOf : String → String) (raw : List (List String)) :
    List (List String) :=
  raw.foldl (do_filter_step typeOf) []

/-- `get_hops` (lines 526-527): consecutive pairs of a node list. -/
def get_hops (r : List String) : List (String × String) := r.zip r.tail

/-- The inner expansion step of `find_route` (lines 576-587): each already
accumulated subroute is extended by each physical node sequence of the
current hop's entanglement link, dropping the shared first node. -/
def expandHop (entNodes : String → String → List (List String))
    (subroutes : List (List String)) (hop : String × String) :
    List (List String) :=
  let ps := entNodes hop.1 hop.2
  if subroutes.isEmpty then ps
  else (subroutes.map (fun r => ps.map (fun p => r ++ p.drop 1))).flatten

/-- Expansion of one filtered route into physical routes (lines 574-587). -/
def expandRoute (entNodes : String → String → List (List String))
    (r : List String) : List (List String) :=
  (get_hops r).foldl (expandHop entNodes) []

/-- The final collection step (lines 588-590): append an expanded route
only if it is not already present. -/
def addUnique (routes : List (List String)) (s : List String) :
    List (List String) :=
  if routes.contains s then routes else routes ++ [s]

/-- `NetworkGenerator.find_route` (lines 472-592) in entanglement mode
(`ent_link=True`), as a function of the node-type map, the
`get_nodes_in_ent_link` expansion, and the raw routes produced by the
routing algorithm on the entanglement graph.  `src == dst` returns the raw
routes unfiltered; otherwise the routes are filtered, expanded hop by hop
to physical node sequences, and deduplicated. -/
def find_route_ent (typeOf : String → String)
    (entNodes : String → String → List (List String))
    (src dst : String) (raw : List (List String)) : List (List String) :=
  if src = dst then raw
  else
    ((do_filter typeOf raw).map (expandRoute entNodes)).foldl
      (fun acc subs => subs.foldl addUnique acc) []

end QuantNet

namespace QuantNet

/-- `list.contains` agrees with membership (lawful `BEq` on node lists). -/
theorem contains_true_iff_mem (l : List (List String)) (a : List String) :
    l.contains a = true ↔ a ∈ l := by
  simp [List.contains_eq_any_beq]

/-- `addUnique` preserves distinctness of the collected routes. -/
theorem addUnique_nodup {routes : List (List String)} {s : List String}
    (h : routes.Nodup) : (addUnique routes s).Nodup := by
  unfold addUnique
  by_cases hm : s ∈ routes
  · rw [if_pos ((contains_true_iff_mem routes s).mpr hm)]
    exact h
  · rw [if_neg (fun hc => hm ((contains_true_iff_mem routes s).mp hc))]
    simp [List.nodup_append, h, hm]

/-- Folding `addUnique` over any list preserves distinctness. -/
theorem foldl_addUnique_nodup (subs : List (List String)) :
    ∀ acc : List (List String), acc.Nodup → (subs.foldl addUnique acc).Nodup := by
  induction subs with
  | nil => intro acc h; exact h
  | cons s rest ih => intro acc h; exact ih _ (addUnique_nodup h)

/-- The nested collection fold of `find_route` preserves distinctness. -/
theorem foldl_foldl_addUnique_nodup (ls : List (List (List String))) :
    ∀ acc : List (List String), acc.Nodup →
      (ls.foldl (fun acc subs => subs.foldl addUnique acc) acc).Nodup := by
  induction ls with
  | nil => intro acc h; exact h
  | cons subs rest ih => intro acc h; exact ih _ (foldl_addUnique_nodup subs acc h)

/-- A route surviving one `do_filter` step was already collected or is the
scrutinized route and passed the validity test. -/
theorem do_filter_step_mem {typeOf : String → String} {acc : List (List String)}
    {r x : List String} (hx : x ∈ do_filter_step typeOf acc r) :
    x ∈ acc ∨ (x = r ∧ do_filter_valid typeOf r = true) := by
  unfold do_filter_step at hx
  by_cases hv : (do_filter_valid typeOf r && !(acc.contains r)) = true
  · rw [if_pos hv] at hx
    rcases List.mem_append.mp hx with h | h
    · exact Or.inl h
    · have hx' : x = r := by simpa using h
      have hv' := hv
      rw [Bool.and_eq_true] at hv'
      exact Or.inr ⟨hx', hv'.1⟩
  · rw [if_neg hv] at hx
    exact Or.inl hx

/-- One `do_filter` step preserves distinctness of the collected routes. -/
theorem do_filter_step_nodup {typeOf : String → String} {acc : List (List String)}
    {r : List String} (h : acc.Nodup) : (do_filter_step typeOf acc r).Nodup := by
  unfold do_filter_step
  by_cases hv : (do_filter_valid typeOf r && !(acc.contains r)) = true
  · rw [if_pos hv]
    have hnc : acc.contains r = false := by
      have hv' := hv
      rw [Bool.and_eq_true] at hv'
      simpa using hv'.2
    have hnm : r ∉ acc := fun hm => by
      rw [(contains_true_iff_mem acc r).mpr hm] at hnc
      exact Bool.noConfusion hnc
    simp [List.nodup_append, h, hnm]
  · rw [if_neg hv]; exact h

/-- Soundness of the `do_filter` fold: every collected route was already in
the accumulator or passed the interior-router test. -/
theorem do_filter_fold_sound (typeOf : String → String) (raw : List (List String)) :
    ∀ acc : List (List String),
      (∀ x ∈ acc, 2 < x.length → ∀ n ∈ interior x, is_router_device typeOf n = true) →
      ∀ x ∈ raw.foldl (do_filter_step typeOf) acc,
        2 < x.length → ∀ n ∈ interior x, is_router_device typeOf n = true := by
  induction raw with
  | nil => intro acc hacc x hx; exact hacc x hx
  | cons r rest ih =>
      intro acc hacc x hx
      refine ih (do_filter_step typeOf acc r) ?_ x hx
      intro y hy hlen n hn
      rcases do_filter_step_mem hy with h | ⟨rfl, hval⟩
      · exact hacc y h hlen n hn
      · unfold do_filter_valid at hval
        rw [Bool.or_eq_true] at hval
        rcases hval with h2 | h2
        · exact absurd (of_decide_eq_true h2) (by omega)
        · exact List.all_eq_true.mp h2 n hn

/-- Distinctness of the full `do_filter` fold. -/
theorem do_filter_fold_nodup (typeOf : String → String) (raw : List (List String)) :
    ∀ acc : List (List String), acc.Nodup →
      (raw.foldl (do_filter_step typeOf) acc).Nodup := by
  induction raw with
  | nil => intro acc h; exact h
  | cons r rest ih => intro acc h; exact ih _ (do_filter_step_nodup h)

/-- C6 (amended): in entanglement mode with distinct endpoints, every route
selected by the entanglement-mode filter (`do_filter`) with more than two
nodes has only router-type interior nodes, the filtered list contains no
duplicate node sequences, and the final returned route list (after each hop
is expanded back to its physical node sequence) contains no duplicate node
sequences.  (As stated, the claim asserted the interior-router property of
the *returned, expanded* paths, which reintroduce non-router BSM interior
nodes — refuted by `C6_counterexample`.) -/
theorem C6_ent_route_filter (typeOf : String → String)
    (entNodes : String → String → List (List String)) (src dst : String)
    (raw : List (List String)) (hne : src ≠ dst) :
    (∀ r ∈ do_filter typeOf raw, 2 < r.length →
        ∀ n ∈ interior r, is_router_device typeOf n = true) ∧
    (do_filter typeOf raw).Nodup ∧
    (find_route_ent typeOf entNodes src dst raw).Nodup := by
  refine ⟨?_, ?_, ?_⟩
  · exact do_filter_fold_sound typeOf raw [] (by intro x hx; simp at hx)
  · exact do_filter_fold_nodup typeOf raw [] List.nodup_nil
  · unfold find_route_ent
    rw [if_neg hne]
    exact foldl_foldl_addUnique_nodup _ [] List.nodup_nil

/-- Node types of the counterexample topology: `m` is a BSM device, every
other node an entanglement-capable end node. -/
def c6TypeOf : String → String := fun n => if n = "m" then "BSMNode" else "QNode"

/-- `get_nodes_in_ent_link` of the counterexample topology: the single
entanglement link between two nodes runs through the BSM node `m`. -/
def c6EntNodes : String → String → List (List String) := fun a b => [[a, "m", b]]

/-- C6 (counterexample): the route returned in entanglement mode for the
one-edge entanglement graph `A — B` is the expanded physical sequence
`[A, m, B]`; it has more than two hops and its interior node `m` is a BSM
device, not a router-type device, refuting the claim about returned paths. -/
theorem C6_counterexample :
    find_route_ent c6TypeOf c6EntNodes "A" "B" [["A", "B"]] = [["A", "m", "B"]] ∧
    2 < (["A", "m", "B"] : List String).length ∧
    "m" ∈ interior ["A", "m", "B"] ∧
    is_router_device c6TypeOf "m" = false := by decide

/-- Witness for C6 (amended), on the counterexample topology. -/
theorem C6_witness :
    (∀ r ∈ do_filter c6TypeOf [["A", "B"]], 2 < r.length →
        ∀ n ∈ interior r, is_router_device c6TypeOf n = true) ∧
    (do_filter c6TypeOf [["A", "B"]]).Nodup ∧
    (find_route_ent c6TypeOf c6EntNodes "A" "B" [["A", "B"]]).Nodup :=
  C6_ent_route_filter c6TypeOf c6EntNodes "A" "B" [["A", "B"]] (by decide)

end QuantNet

namespace QuantNet

/-! ## Topology construction (`core/managers.py`, `build_topology`) -/

/-- A channel of a node descriptor, with its neighbor reference
(`c.ID`, `c.type`, `c.direction`, `c.neighbor.systemRef`,
`c.neighbor.channelRef`). -/
structure Channel where
  ID : String
  ctype : String
  direction : String
  nbrSystemRef : String
  nbrChannelRef : String
deriving DecidableEq, Repr

/-- A node descriptor as consumed by `build_topology`: its
`systemSettings.ID` and channel list. -/
structure TNode where
  ID : String
  channels : List Channel
deriving DecidableEq, Repr

/-- Python `dict` assignment `d[k] = v`: replace the value in place if the
key is present, append otherwise (insertion order preserved). -/
def dictInsert {α : Type} (k : String) (v : α) :
    List (String × α) → List (String × α)
  | [] => [(k, v)]
  | q :: rest => if q.1 = k then (k, v) :: rest else q :: dictInsert k v rest

/-- Python `dict.get(k)`: the value stored at `k`, if any. -/
def dictGet {α : Type} (k : String) : List (String × α) → Option α
  | [] => Option.none
  | q :: rest => if q.1 = k then some q.2 else dictGet k rest

/-- The per-node channel dictionary `channels[nid]` built by
`build_topology` (lines 126-132): keyed by channel `ID`, a later channel
overwrites an earlier one with the same `ID`; a node without channels
keeps an empty dictionary. -/
def chanDict (n : TNode) : List (String × Channel) :=
  n.channels.foldl (fun d c => dictInsert c.ID c d) []

/-- The outer `channels` dictionary keyed by node id (lines 107-132); a
later node with the same id replaces the earlier entry. -/
def channelsMap (nodes : List TNode) : List (String × List (String × Channel)) :=
  nodes.foldl (fun m n => dictInsert n.ID (chanDict n) m) []

/-- The edge-materialization test of `build_topology` (lines 134-152) for
one channel `c` of node `k`: only an `out` channel whose
`neighbor.systemRef` resolves to a known, non-empty channel dictionary
(`if not rid` treats an empty dict as missing), whose
`neighbor.channelRef` resolves within it, and whose remote channel has
`direction == "in"`, contributes the edge `(k, systemRef, type)`; every
other case is logged and skipped. -/
def edgeOf (cm : List (String × List (String × Channel))) (k : String)
    (c : Channel) : Option (String × String × String) :=
  if c.direction = "out" then
    match dictGet c.nbrSystemRef cm with
    | Option.none => Option.none
    | some rchans =>
        if rchans.isEmpty then Option.none
        else
          match dictGet c.nbrChannelRef rchans with
          | Option.none => Option.none
          | some rc =>
              if rc.direction = "in" then some (k, c.nbrSystemRef, c.ctype)
              else Option.none
  else Option.none

/-- The edges materialized by `build_topology`, in iteration order of the
channel dictionaries. -/
def build_edges (nodes : List TNode) : List (String × String × String) :=
  ((channelsMap nodes).map
    (fun kv => kv.2.filterMap (fun cc => edgeOf (channelsMap nodes) kv.1 cc.2))).flatten

/-- Unfolding of the edge-materialization test. -/
theorem edgeOf_eq_some (cm : List (String × List (String × Channel))) (k : String)
    (c : Channel) (e : String × String × String) :
    edgeOf cm k c = some e ↔
      c.direction = "out" ∧
      (∃ rchans rc, dictGet c.nbrSystemRef cm = some rchans ∧ rchans ≠ [] ∧
        dictGet c.nbrChannelRef rchans = some rc ∧ rc.direction = "in" ∧
        e = (k, c.nbrSystemRef, c.ctype)) := by
  unfold edgeOf
  by_cases hdir : c.direction = "out"
  · cases hg : dictGet c.nbrSystemRef cm with
    | none => simp [hdir, hg]
    | some rchans =>
        by_cases hemp : rchans.isEmpty = true
        · have hnil : rchans = [] := List.isEmpty_iff.mp hemp
          simp [hdir, hg, hemp, hnil]
        · have hne : rchans ≠ [] := fun hh => hemp (List.isEmpty_iff.mpr hh)
          cases hc : dictGet c.nbrChannelRef rchans with
          | none => simp [hdir, hg, hemp, hc, hne]
          | some rc =>
              by_cases hin : rc.direction = "in"
              · simp [hdir, hg, hemp, hc, hin, hne, eq_comm]
              · simp [hdir, hg, hemp, hc, hin, hne]
  · simp [hdir]

/-- C7: an edge is materialized by `build_topology` exactly when it comes
from an `out` channel of some node whose neighbor reference resolves to an
existing remote node with a non-empty channel dictionary and an existing
remote channel of direction `in`; whenever the remote node or channel is
missing or the remote direction is not `in`, no edge is added. -/
theorem C7_topology_validity (nodes : List TNode) (e : String × String × String) :
    e ∈ build_edges nodes ↔
      ∃ k chans cid c rchans rc,
        (k, chans) ∈ channelsMap nodes ∧ (cid, c) ∈ chans ∧
        c.direction = "out" ∧
        dictGet c.nbrSystemRef (channelsMap nodes) = some rchans ∧ rchans ≠ [] ∧
        dictGet c.nbrChannelRef rchans = some rc ∧ rc.direction = "in" ∧
        e = (k, c.nbrSystemRef, c.ctype) := by
  unfold build_edges
  rw [List.mem_flatten]
  constructor
  · rintro ⟨l, hl, hel⟩
    obtain ⟨kv, hkv, rfl⟩ := List.mem_map.mp hl
    obtain ⟨cc, hcc, hedge⟩ := List.mem_filterMap.mp hel
    obtain ⟨hdir, rchans, rc, hg, hne, hcch, hin, he⟩ :=
      (edgeOf_eq_some (channelsMap nodes) kv.1 cc.2 e).mp hedge
    exact ⟨kv.1, kv.2, cc.1, cc.2, rchans, rc, by simpa using hkv, by simpa using hcc,
      hdir, hg, hne, hcch, hin, he⟩
  · rintro ⟨k, chans, cid, c, rchans, rc, hkv, hcc, hdir, hg, hne, hcch, hin, he⟩
    refine ⟨chans.filterMap (fun cc => edgeOf (channelsMap nodes) k cc.2), ?_, ?_⟩
    · exact List.mem_map.mpr ⟨(k, chans), hkv, rfl⟩
    · exact List.mem_filterMap.mpr ⟨(cid, c), hcc,
        (edgeOf_eq_some (channelsMap nodes) k c e).mpr
          ⟨hdir, rchans, rc, hg, hne, hcch, hin, he⟩⟩

end QuantNet

namespace QuantNet

/-! ## Document store and `new_request` persistence
(`db/nosql/collection/__init__.py`, `db/nosql/db.py`, `common/request.py`) -/

/-- A persisted document of the `Requests` collection: the reserved primary
key `_id` (synthesized by `DBLayer._insert_id`) and the request fields,
abstracted to the request `id` field. -/
structure StoredDoc where
  mongoId : String
  rid : String
deriving DecidableEq, Repr

/-- `collection.replace_one({"_id": key}, doc, upsert=True)`: replace the
first document carrying that `_id`, or insert the document. -/
def replace_one_by_mongoId (key : String) (doc : StoredDoc) :
    List StoredDoc → List StoredDoc
  | [] => [doc]
  | d :: rest =>
      if d.mongoId = key then doc :: rest
      else d :: replace_one_by_mongoId key doc rest

/-- `Collection.add` on the `Requests` collection
(`collection/__init__.py` lines 35-46) via `DBLayer.insert`
(`db.py` lines 58-79) with `Id="_id"`, `history=False`, `capped=False`.
The incoming `Request.to_dict()` record carries no `_id` field, so
`_insert_id` synthesizes one: `data.get(self.Id, str(ObjectId()))` looks up
the reserved key `"_id"` itself — not the request `id` — and therefore
always falls back to a fresh `ObjectId` string (`fresh` below), and
`replace_one({"_id": fresh}, data, upsert=True)` then inserts a new
document regardless of any existing record with the same request `id`. -/
def collection_add (store : List StoredDoc) (fresh : String) (reqId : String) :
    List StoredDoc :=
  replace_one_by_mongoId fresh { mongoId := fresh, rid := reqId } store

/-- `RequestManager.new_request` (`common/request.py` lines 288-319):
builds the request and unconditionally persists it with
`self.db_handler.add(request.to_dict())`; there is no existence check on
the request id. -/
def new_request_store (store : List StoredDoc) (fresh : String) (reqId : String) :
    List StoredDoc :=
  collection_add store fresh reqId

/-- C5: `new_request` with an explicit id that already exists in the store
creates a second persisted record for that id — the synthesized `_id` is a
fresh `ObjectId`, never the request id, so the upsert keyed on it always
inserts.  After inserting id `r1` twice the store holds two records whose
`id` field is `r1`. -/
theorem C5_duplicate_record :
    new_request_store [{ mongoId := "oid0", rid := "r1" }] "oid1" "r1" =
      [{ mongoId := "oid0", rid := "r1" }, { mongoId := "oid1", rid := "r1" }] ∧
    (new_request_store [{ mongoId := "oid0", rid := "r1" }] "oid1" "r1").countP
        (fun d => d.rid == "r1") = 2 := by
  decide

/-! ## RequestManager singleton sharing (`common/request.py`) -/

/-- A `RequestManager` instance as initialised by `__init__` (lines
192-256): the plugin key it is registered under in `_instances`, and the
heap references it holds to its active-request dict
(`self._active_requests`) and its DB handler (`self.db_handler`). -/
structure ManagerInst where
  pluginKey : String
  activeRef : Nat
  dbRef : Nat
deriving DecidableEq, Repr

/-- The heap reference of the one dict object created for the class
attribute `_shared_active_requests`. -/
def sharedActiveRef : Nat := 0

/-- The heap reference of the one DB handler created for the class
attribute `_shared_db_handler`. -/
def sharedDbRef : Nat := 1

/-- The class-level state of `RequestManager`: the `_instances` dict,
whether `_shared_db_handler` has been initialised, and a heap of dict
objects addressed by `Nat` references. -/
structure RMState where
  instances : List (String × ManagerInst)
  sharedDbInit : Bool
  heap : Nat → List (String × RequestM)

/-- The fresh class state: no instances, no DB handler, empty dicts. -/
def initRMState : RMState :=
  { instances := [], sharedDbInit := false, heap := fun _ => [] }

/-- `RequestManager.__new__` + `__init__` for a plugin key (lines 162-256):
return the instance already registered for the key, or create one; the new
instance's `_active_requests` is assigned the class attribute
`_shared_active_requests` and its `db_handler` the class attribute
`_shared_db_handler` (created on first initialisation), so both references
are the shared ones. -/
def getManager (s : RMState) (key : String) : ManagerInst × RMState :=
  match dictGet key s.instances with
  | some inst => (inst, s)
  | Option.none =>
      let inst : ManagerInst :=
        { pluginKey := key, activeRef := sharedActiveRef, dbRef := sharedDbRef }
      (inst, { s with instances := dictInsert key inst s.instances
                      sharedDbInit := true })

/-- `new_request`'s in-memory registration through an instance:
`self._active_requests[request.id] = request` mutates the dict object the
instance's `activeRef` points to. -/
def new_request_active (s : RMState) (inst : ManagerInst) (r : RequestM) : RMState :=
  { s with heap := fun i =>
      if i = inst.activeRef then dictInsert r.id r (s.heap i) else s.heap i }

/-- `get_request`'s in-memory lookup through an instance
(`if rid in self._active_requests`). -/
def get_active (s : RMState) (inst : ManagerInst) (rid : String) : Option RequestM :=
  dictGet rid (s.heap inst.activeRef)

/-- Class states reachable from the fresh state by constructing managers
(any plugin key, i.e. any plugin schema and request type) and registering
requests through existing managers. -/
inductive Reachable : RMState → Prop where
  | init : Reachable initRMState
  | construct (s : RMState) (key : String) (h : Reachable s) :
      Reachable (getManager s key).2
  | register (s : RMState) (inst : ManagerInst) (r : RequestM) (h : Reachable s)
      (hmem : (inst.pluginKey, inst) ∈ s.instances) :
      Reachable (new_request_active s inst r)

/-- Members of a Python-dict insertion are the inserted pair or old members. -/
theorem mem_dictInsert {α : Type} {k : String} {v : α} {l : List (String × α)}
    {p : String × α} (hp : p ∈ dictInsert k v l) : p = (k, v) ∨ p ∈ l := by
  induction l with
  | nil => simpa [dictInsert] using hp
  | cons q rest ih =>
      unfold dictInsert at hp
      by_cases hk : q.1 = k
      · rw [if_pos hk] at hp
        rcases List.mem_cons.mp hp with h | h
        · exact Or.inl h
        · exact Or.inr (List.mem_cons_of_mem _ h)
      · rw [if_neg hk] at hp
        rcases List.mem_cons.mp hp with h | h
        · exact Or.inr (h ▸ List.mem_cons_self _ _)
        · rcases ih h with h' | h'
          · exact Or.inl h'
          · exact Or.inr (List.mem_cons_of_mem _ h')

/-- Looking up the key just inserted yields the inserted value. -/
theorem dictGet_dictInsert_self {α : Type} (k : String) (v : α)
    (l : List (String × α)) : dictGet k (dictInsert k v l) = some v := by
  induction l with
  | nil => simp [dictInsert, dictGet]
  | cons q rest ih =>
      unfold dictInsert
      by_cases hk : q.1 = k
      · rw [if_pos hk]
        simp [dictGet]
      · rw [if_neg hk]
        unfold dictGet
        rw [if_neg hk]
        exact ih

/-- Invariant: every registered instance holds the shared references. -/
theorem reachable_instances_shared {s : RMState} (h : Reachable s) :
    ∀ p ∈ s.instances,
      (p.2).activeRef = sharedActiveRef ∧ (p.2).dbRef = sharedDbRef := by
  induction h with
  | init => intro p hp; simp [initRMState] at hp
  | construct s key hs ih =>
      intro p hp
      unfold getManager at hp
      cases hg : dictGet key s.instances with
      | some inst =>
          rw [hg] at hp
          exact ih p hp
      | none =>
          rw [hg] at hp
          simp only at hp
          rcases mem_dictInsert hp with rfl | hp'
          · exact ⟨rfl, rfl⟩
          · exact ih p hp'
  | register s inst r hs hmem ih =>
      intro p hp
      exact ih p hp

/-- C10: any two `RequestManager` instances registered in a reachable class
state — whatever their plugin keys (schema and request kind) — hold the
same active-request dict reference and the same DB-handler reference, and a
request registered through one of them is immediately visible through the
other. -/
theorem C10_shared_registry (s : RMState) (h : Reachable s)
    (kA kB : String) (A B : ManagerInst)
    (hA : (kA, A) ∈ s.instances) (hB : (kB, B) ∈ s.instances) (r : RequestM) :
    A.activeRef = B.activeRef ∧ A.dbRef = B.dbRef ∧
    get_active (new_request_active s A r) B r.id = some r := by
  have hAi := reachable_instances_shared h (kA, A) hA
  have hBi := reachable_instances_shared h (kB, B) hB
  have hact : A.activeRef = B.activeRef := by
    simp only at hAi hBi
    rw [hAi.1, hBi.1]
  have hdb : A.dbRef = B.dbRef := by
    simp only at hAi hBi
    rw [hAi.2, hBi.2]
  refine ⟨hact, hdb, ?_⟩
  unfold get_active new_request_active
  simp only [hact, if_true, eq_self_iff_true]
  exact dictGet_dictInsert_self r.id r _

/-- A concrete reachable state: the experiment-protocol manager and a
protocol manager constructed in one process. -/
def c10State : RMState :=
  (getManager (getManager initRMState "agentExperiment_experiment").2
    "spgRequest_protocol").2

/-- Witness for C10: the two concrete managers share both references, and
a request created through the first is read back through the second. -/
theorem C10_witness :
    ({ pluginKey := "agentExperiment_experiment", activeRef := sharedActiveRef,
        dbRef := sharedDbRef } : ManagerInst).activeRef =
      ({ pluginKey := "spgRequest_protocol", activeRef := sharedActiveRef,
          dbRef := sharedDbRef } : ManagerInst).activeRef ∧
    ({ pluginKey := "agentExperiment_experiment", activeRef := sharedActiveRef,
        dbRef := sharedDbRef } : ManagerInst).dbRef =
      ({ pluginKey := "spgRequest_protocol", activeRef := sharedActiveRef,
          dbRef := sharedDbRef } : ManagerInst).dbRef ∧
    get_active
      (new_request_active c10State
        { pluginKey := "agentExperiment_experiment", activeRef := sharedActiveRef,
          dbRef := sharedDbRef } (mkRequest "r1" 0))
      { pluginKey := "spgRequest_protocol", activeRef := sharedActiveRef,
        dbRef := sharedDbRef } (mkRequest "r1" 0).id = some (mkRequest "r1" 0) :=
  C10_shared_registry c10State
    (Reachable.construct _ "spgRequest_protocol"
      (Reachable.construct _ "agentExperiment_experiment" Reachable.init))
    "agentExperiment_experiment" "spgRequest_protocol" _ _ (by decide) (by decide)
    (mkRequest "r1" 0)

end QuantNet

namespace QuantNet

set_option maxRecDepth 40000 in
/-- C3 (counterexample): in the no-fit case `find_common_slot` still
returns an allocation, `[("a", [-1])]`, and the AND of the availability
bitmaps does not have a `1` bit at the allocated index `-1` (all its bits
are `0`), refuting the claim as stated over every returned result. -/
theorem C3_counterexample :
    find_common_slot ["a"] (fun _ => List.replicate MAX_TIMESLOTS false)
        [{ node_type := "MNode", durations := [100000] }] =
      some [("a", [-1])] ∧
    (commonBits ["a"] (fun _ => List.replicate MAX_TIMESLOTS false)).getD
        (-1 : Int).toNat false = false := by
  exact ⟨rfl, rfl⟩

end QuantNet
